import Mathlib

/-!
Verification of the `hue-cli` command-line client (src/main.rs) against its
natural-language specification.

The program is a thin orchestration layer over an external Hue bridge API
client.  We embed it shallowly: every network call made by the program is an
entry in an oracle structure (`BridgeOracle`, `World`) describing the
collaborator's responses, and every handler is a pure function returning the
list of calls it issued (`Event`) together with its result.  The unbounded
`blink` loop is embedded with explicit fuel: `none` as a result means the loop
is still running after `fuel` iterations.
-/

namespace HueCli

/-- Error type: a human-readable message, as `anyhow::Error` carries. -/
abbrev Err := String

/-- Embeds `struct Config { username: String }` (src/main.rs:14-17). -/
structure Config where
  username : String
deriving DecidableEq

/-- Embeds the `huelib` light state fields used by the program:
`state.reachable : bool` and `state.on : Option<bool>`. -/
structure LightState where
  reachable : Bool
  onState : Option Bool
deriving DecidableEq

/-- Embeds the `huelib` light fields used by the program: `id`, `name`, `state`. -/
structure Light where
  id : String
  name : String
  state : LightState
deriving DecidableEq

/-- Embeds the `huelib` group fields used by the program: `id`, `name`, `lights`. -/
structure Group where
  id : String
  name : String
  lights : List String
deriving DecidableEq

/-- Embeds `enum Subcommand` (src/main.rs:19-52). -/
inductive Subcommand where
  | register
  | scan
  | list
  | listGroups
  | blink (id : String)
  | name (id : String) (newName : String)
  | allOn
  | allOff
deriving DecidableEq

/-- One observable action of the program: a call to an external collaborator,
a sleep, a session construction, or a line printed to standard output. -/
inductive Event where
  | discoverNupnp
  | registerUser (address : String) (clientName : String)
  | findConfigFile
  | readConfigFile (path : String)
  | parseConfigFile
  | buildSession (address : String) (username : String)
  | searchNewLights
  | getNewLights
  | getAllLights
  | getAllGroups
  | setLightState (id : String) (turnOn : Bool)
  | setLightAttribute (id : String) (newName : String)
  | sleepSecs (n : Nat)
  | printLine (s : String)
deriving DecidableEq

/-- Computable lexicographic comparison of character lists, embedding Rust's
`Ord` for `String` (byte-lexicographic, which agrees with code-point order on
the characters of valid UTF-8 strings). -/
def lexLe : List Char → List Char → Bool
  | [], _ => true
  | _ :: _, [] => false
  | x :: xs, y :: ys => if x = y then lexLe xs ys else decide (x < y)

/-- Comparator used by `lights.sort_by(|a, b| a.id.cmp(&b.id))`. -/
def idLe (a b : Light) : Prop := lexLe a.id.data b.id.data = true

instance : DecidableRel idLe := fun a b =>
  inferInstanceAs (Decidable (lexLe a.id.data b.id.data = true))

/-- Embeds `lights.sort_by(|a, b| a.id.cmp(&b.id))` (src/main.rs:85,165,178):
a stable sort by ascending light identifier.  Rust's `sort_by` is stable, and a
stable sort by a total comparator is extensionally unique, so insertion sort
produces exactly the list the source produces. -/
def sortLightsById (ls : List Light) : List Light := List.insertionSort idLe ls

/-- Comparator used by `groups.sort_by(|a, b| a.id.cmp(&b.id))`. -/
def groupIdLe (a b : Group) : Prop := lexLe a.id.data b.id.data = true

instance : DecidableRel groupIdLe := fun a b =>
  inferInstanceAs (Decidable (lexLe a.id.data b.id.data = true))

/-- Embeds `groups.sort_by(|a, b| a.id.cmp(&b.id))` (src/main.rs:121). -/
def sortGroupsById (gs : List Group) : List Group := List.insertionSort groupIdLe gs

/-- Responses of the external bridge client for one command invocation.
`setLightState` is indexed by the ordinal of the `set_light_state` call within
the handler, so each successive network call may independently succeed or
fail. -/
structure BridgeOracle where
  searchNewLights : Except Err Unit
  getNewLights : Except Err (List Light)
  getAllLights : Except Err (List Light)
  getAllGroups : Except Err (List Group)
  setLightState : Nat → String → Bool → Except Err Unit
  setLightAttribute : String → String → Except Err Unit

/-- Embeds `cmd_scan` (src/main.rs:65-75). -/
def cmd_scan (o : BridgeOracle) : List Event × Except Err Unit :=
  match o.searchNewLights with
  | .error e => ([.searchNewLights], .error e)
  | .ok _ =>
    match o.getNewLights with
    | .error e =>
      ([.searchNewLights, .printLine "Initiated scan. Sleeping for 40s.",
        .sleepSecs 40, .getNewLights], .error e)
    | .ok _ =>
      ([.searchNewLights, .printLine "Initiated scan. Sleeping for 40s.",
        .sleepSecs 40, .getNewLights], .ok ())

/-- Embeds the `reachable` cell of `cmd_list` (src/main.rs:91-95). -/
def renderReachable (reachable : Bool) : String :=
  if reachable then "yes" else "no"

/-- Embeds the `on` cell of `cmd_list`
(src/main.rs:96-104: `light.state.on.map(...).unwrap_or("-")`). -/
def renderOn (st : Option Bool) : String :=
  (st.map fun b => if b then "yes" else "no").getD "-"

/-- Embeds the row added for one light by `cmd_list` (src/main.rs:88-105). -/
def lightRow (l : Light) : List String :=
  [l.id, l.name, renderReachable l.state.reachable, renderOn l.state.onState]

/-- Embeds `cmd_list` (src/main.rs:77-111); the table body is returned as the
list of rows in display order. -/
def cmd_list (o : BridgeOracle) : List Event × Except Err (List (List String)) :=
  match o.getAllLights with
  | .error e => ([.getAllLights], .error e)
  | .ok lights => ([.getAllLights], .ok ((sortLightsById lights).map lightRow))

/-- Embeds the row added for one group by `cmd_list_groups` (src/main.rs:124-128). -/
def groupRow (g : Group) : List String :=
  [g.id, g.name, String.intercalate "," g.lights]

/-- Embeds `cmd_list_groups` (src/main.rs:113-134). -/
def cmd_list_groups (o : BridgeOracle) : List Event × Except Err (List (List String)) :=
  match o.getAllGroups with
  | .error e => ([.getAllGroups], .error e)
  | .ok gs => ([.getAllGroups], .ok ((sortGroupsById gs).map groupRow))

/-- State of the light requested by the `n`-th `set_light_state` call of the
blink loop (0-based): the loop starts with `on = true` and negates after each
call. -/
def parityOn (start : Bool) (i : Nat) : Bool :=
  if i % 2 = 0 then start else !start

/-- Embeds the `loop` of `cmd_blink` (src/main.rs:140-147) with explicit fuel:
set the light, and on success sleep one second and continue with the flag
negated.  A `none` result means the loop is still running after `fuel`
iterations. -/
def blinkLoop (setResp : Nat → String → Bool → Except Err Unit) (id : String) :
    Bool → Nat → Nat → List Event × Option (Except Err Unit)
  | _, _, 0 => ([], none)
  | turnOn, k, fuel + 1 =>
    match setResp k id turnOn with
    | .error e => ([.setLightState id turnOn], some (.error e))
    | .ok _ =>
      let r := blinkLoop setResp id (!turnOn) (k + 1) fuel
      (.setLightState id turnOn :: .sleepSecs 1 :: r.1, r.2)

/-- Embeds `cmd_blink` (src/main.rs:136-148). -/
def cmd_blink (o : BridgeOracle) (id : String) (fuel : Nat) :
    List Event × Option (Except Err Unit) :=
  let r := blinkLoop o.setLightState id true 0 fuel
  (.printLine ("Blinking light " ++ id ++ "...") :: r.1, r.2)

/-- The event trace of `fuel` successful blink iterations: one
`set_light_state` call, then a one-second sleep, with the flag negated between
iterations. -/
def blinkTrace (id : String) : Bool → Nat → List Event
  | _, 0 => []
  | turnOn, fuel + 1 => .setLightState id turnOn :: .sleepSecs 1 :: blinkTrace id (!turnOn) fuel

/-- Embeds `cmd_name` (src/main.rs:150-159). -/
def cmd_name (o : BridgeOracle) (id newName : String) : List Event × Except Err Unit :=
  match o.setLightAttribute id newName with
  | .error e => ([.setLightAttribute id newName], .error e)
  | .ok _ =>
    ([.setLightAttribute id newName,
      .printLine ("Set light " ++ id ++ " name to \"" ++ newName ++ "\"")], .ok ())

/-- Embeds the `for light in lights { bridge.set_light_state(light.id, &modifier)?; }`
loop shared by `cmd_all_on` and `cmd_all_off` (src/main.rs:167-169,180-182):
one call per identifier in list order, stopping at the first error.  `k` is
the ordinal of the next call. -/
def runSetAll (setResp : Nat → String → Bool → Except Err Unit) (turnOn : Bool) :
    Nat → List String → List Event × Except Err Unit
  | _, [] => ([], .ok ())
  | k, id :: rest =>
    match setResp k id turnOn with
    | .error e => ([.setLightState id turnOn], .error e)
    | .ok _ =>
      let r := runSetAll setResp turnOn (k + 1) rest
      (.setLightState id turnOn :: r.1, r.2)

/-- Embeds `cmd_all_on` (src/main.rs:161-172). -/
def cmd_all_on (o : BridgeOracle) : List Event × Except Err Unit :=
  match o.getAllLights with
  | .error e => ([.getAllLights], .error e)
  | .ok lights =>
    let r := runSetAll o.setLightState true 0 ((sortLightsById lights).map Light.id)
    (.getAllLights :: r.1, r.2)

/-- Embeds `cmd_all_off` (src/main.rs:174-185). -/
def cmd_all_off (o : BridgeOracle) : List Event × Except Err Unit :=
  match o.getAllLights with
  | .error e => ([.getAllLights], .error e)
  | .ok lights =>
    let r := runSetAll o.setLightState false 0 ((sortLightsById lights).map Light.id)
    (.getAllLights :: r.1, r.2)

/-- Responses of every external collaborator reached from `main`:
the bridge client, NUPnP discovery, registration, the XDG config-file lookup,
the filesystem read, and the TOML parser. -/
structure World where
  bridge : BridgeOracle
  discoverNupnp : Except Err (List String)
  registerUser : String → String → Except Err String
  findConfigFile : Option String
  readToString : String → Except Err String
  parseToml : String → Except Err Config

/-- Embeds the address resolution of `main` (src/main.rs:190-198): use the
explicit address when given, otherwise discover and `pop()` the last candidate,
failing on an empty list. -/
def resolveAddress (ipAddress : Option String) (discovered : Except Err (List String)) :
    List Event × Except Err String :=
  match ipAddress with
  | some a => ([], .ok a)
  | none =>
    match discovered with
    | .error e => ([.discoverNupnp], .error e)
    | .ok addrs =>
      match addrs.getLast? with
      | some a => ([.discoverNupnp], .ok a)
      | none => ([.discoverNupnp], .error "No bridge IP addresses found on the network")

/-- Embeds the configuration loading of `main` (src/main.rs:207-215): locate
`config.toml`, read it, and parse it into `Config`. -/
def loadConfig (w : World) : List Event × Except Err Config :=
  match w.findConfigFile with
  | none => ([.findConfigFile], .error "no hue config file found in .config/hue")
  | some path =>
    match w.readToString path with
    | .error e => ([.findConfigFile, .readConfigFile path], .error e)
    | .ok contents =>
      match w.parseToml contents with
      | .error e => ([.findConfigFile, .readConfigFile path, .parseConfigFile], .error e)
      | .ok cfg => ([.findConfigFile, .readConfigFile path, .parseConfigFile], .ok cfg)

/-- Embeds the `match args.subcommand` dispatch of `main` (src/main.rs:219-232). -/
def dispatch (o : BridgeOracle) (sub : Subcommand) (blinkFuel : Nat) :
    List Event × Option (Except Err Unit) :=
  match sub with
  | .register =>
    ([], some (.error
      "Somehow managed to call register after loading config. Should not be possible."))
  | .scan => let r := cmd_scan o; (r.1, some r.2)
  | .list => let r := cmd_list o; (r.1, some (r.2.map fun _ => ()))
  | .listGroups => let r := cmd_list_groups o; (r.1, some (r.2.map fun _ => ()))
  | .blink id => cmd_blink o id blinkFuel
  | .name id newName => let r := cmd_name o id newName; (r.1, some r.2)
  | .allOn => let r := cmd_all_on o; (r.1, some r.2)
  | .allOff => let r := cmd_all_off o; (r.1, some r.2)

/-- Embeds `main` (src/main.rs:187-233): resolve the address; if the
subcommand is `register`, call the registration endpoint, print the username
and return; otherwise load the configuration, build the session and dispatch. -/
def runMain (w : World) (ipAddress : Option String) (sub : Subcommand) (blinkFuel : Nat) :
    List Event × Option (Except Err Unit) :=
  let ra := resolveAddress ipAddress w.discoverNupnp
  match ra.2 with
  | .error e => (ra.1, some (.error e))
  | .ok address =>
    match sub with
    | .register =>
      match w.registerUser address "hue-rs-cli" with
      | .error e => (ra.1 ++ [.registerUser address "hue-rs-cli"], some (.error e))
      | .ok username =>
        (ra.1 ++ [.registerUser address "hue-rs-cli",
                  .printLine ("Username: " ++ username)], some (.ok ()))
    | _ =>
      let lc := loadConfig w
      match lc.2 with
      | .error e => (ra.1 ++ lc.1, some (.error e))
      | .ok config =>
        let d := dispatch w.bridge sub blinkFuel
        (ra.1 ++ lc.1 ++ (.buildSession address config.username :: d.1), d.2)

/-- Accesses of the configuration file. -/
def Event.isConfigAccess : Event → Bool
  | .findConfigFile | .readConfigFile _ | .parseConfigFile => true
  | _ => false

/-- Network calls issued through a bridge session. -/
def Event.isBridgeCall : Event → Bool
  | .searchNewLights | .getNewLights | .getAllLights | .getAllGroups
  | .setLightState _ _ | .setLightAttribute _ _ => true
  | _ => false

/-- Session construction or any call issued through a session. -/
def Event.isSessionActivity : Event → Bool
  | .buildSession _ _ => true
  | e => e.isBridgeCall

/-- The sequence of `set_light_state` calls in a trace, as (id, on) pairs. -/
def setCalls : List Event → List (String × Bool)
  | [] => []
  | .setLightState id turnOn :: rest => (id, turnOn) :: setCalls rest
  | _ :: rest => setCalls rest


/-- Bridge oracle whose calls all succeed with empty data; used as the base of
the concrete example oracles below. -/
def okBridge : BridgeOracle where
  searchNewLights := .ok ()
  getNewLights := .ok []
  getAllLights := .ok []
  getAllGroups := .ok []
  setLightState := fun _ _ _ => .ok ()
  setLightAttribute := fun _ _ => .ok ()

/-- Three lights fetched out of identifier order, exhibiting the three possible
power states. -/
def lightsFetch312 : List Light :=
  [⟨"3", "kitchen", ⟨true, none⟩⟩,
   ⟨"1", "hall", ⟨true, some true⟩⟩,
   ⟨"2", "porch", ⟨false, some false⟩⟩]

/-- Oracle whose light fetch returns lights with ids 3, 1, 2 in that order. -/
def oracleLights312 : BridgeOracle := { okBridge with getAllLights := .ok lightsFetch312 }

/-- Two lights fetched out of identifier order. -/
def lightsTwo : List Light :=
  [⟨"2", "b", ⟨true, some false⟩⟩, ⟨"1", "a", ⟨true, some false⟩⟩]

/-- Oracle whose second `set_light_state` call (ordinal 1) fails. -/
def oracleSecondSetFails : BridgeOracle :=
  { okBridge with
    getAllLights := .ok lightsTwo
    setLightState := fun k _ _ => if k = 1 then .error "connection reset" else .ok () }

/-- World in which every collaborator call succeeds. -/
def baseWorld : World where
  bridge := okBridge
  discoverNupnp := .ok ["192.168.1.10"]
  registerUser := fun _ _ => .ok "generated-user"
  findConfigFile := some "/home/u/.config/hue/config.toml"
  readToString := fun _ => .ok "username = \"abc\""
  parseToml := fun _ => .ok ⟨"abc"⟩

/-- World whose network discovery returns no candidate bridges. -/
def worldEmptyDiscovery : World := { baseWorld with discoverNupnp := .ok [] }

/-- World in which no config file exists. -/
def worldNoConfigFile : World := { baseWorld with findConfigFile := none }

/-- World whose config file exists but does not parse as the expected schema. -/
def worldBadToml : World :=
  { baseWorld with parseToml := fun _ => .error "missing field username" }

theorem lexLe_iff_not_lex : ∀ xs ys : List Char, lexLe xs ys = true ↔ ¬ List.Lex (· < ·) ys xs
  | [], ys =>
    iff_of_true rfl (fun h => by cases h)
  | x :: xs, [] =>
    iff_of_false (by simp [lexLe]) (fun h => h List.Lex.nil)
  | x :: xs, y :: ys => by
    show (if x = y then lexLe xs ys else decide (x < y)) = true ↔
      ¬ List.Lex (· < ·) (y :: ys) (x :: xs)
    by_cases hxy : x = y
    · rw [if_pos hxy]
      subst hxy
      rw [lexLe_iff_not_lex xs ys]
      constructor
      · intro h hlt
        cases hlt with
        | cons h3 => exact h h3
        | rel h1 => exact absurd h1 (lt_irrefl x)
      · intro h hlt
        exact h (List.Lex.cons hlt)
    · rw [if_neg hxy]
      by_cases hlt : x < y
      · rw [decide_eq_true hlt]
        constructor
        · intro _ hc
          cases hc with
          | cons _ => exact hxy rfl
          | rel h1 => exact absurd hlt (asymm h1)
        · intro _; rfl
      · have hyx : y < x := (lt_or_gt_of_ne (Ne.symm hxy)).resolve_right hlt
        rw [decide_eq_false hlt]
        exact iff_of_false (by simp) (fun h => h (List.Lex.rel hyx))

/-- The computable comparison coincides with the standard linear order on
`String`. -/
theorem lexLe_iff (a b : String) : lexLe a.data b.data = true ↔ a ≤ b := by
  rw [lexLe_iff_not_lex]
  exact not_congr (Iff.symm String.lt_iff_toList_lt)

theorem idLe_iff (a b : Light) : idLe a b ↔ a.id ≤ b.id := lexLe_iff a.id b.id

/-- Sorting the fetched lights permutes them. -/
theorem sortLightsById_perm (ls : List Light) : (sortLightsById ls).Perm ls :=
  List.perm_insertionSort idLe ls

/-- Identifiers of the sorted lights are in ascending lexicographic order. -/
theorem sortLightsById_sorted (ls : List Light) :
    ((sortLightsById ls).map Light.id).Pairwise (fun a b => a ≤ b) := by
  haveI : IsTotal Light idLe :=
    ⟨fun a b => by
      rcases le_total a.id b.id with h | h
      · exact Or.inl ((idLe_iff a b).mpr h)
      · exact Or.inr ((idLe_iff b a).mpr h)⟩
  haveI : IsTrans Light idLe :=
    ⟨fun a b c h1 h2 =>
      (idLe_iff a c).mpr (le_trans ((idLe_iff a b).mp h1) ((idLe_iff b c).mp h2))⟩
  exact List.Pairwise.map Light.id (fun a b hab => (idLe_iff a b).mp hab)
    (List.sorted_insertionSort idLe ls)

/-- The only event address resolution can emit is the discovery lookup. -/
theorem resolveAddress_events (ip : Option String) (d : Except Err (List String)) :
    ∀ ev ∈ (resolveAddress ip d).1, ev = Event.discoverNupnp := by
  cases ip with
  | some a => intro ev h; simp [resolveAddress] at h
  | none =>
    cases d with
    | error e =>
      intro ev h
      simpa [resolveAddress] using h
    | ok addrs =>
      cases haddr : addrs.getLast? <;> intro ev h <;>
        simpa [resolveAddress, haddr] using h

/-- C2: for every non-empty discovery result used when no explicit IP address
is given, the locator deterministically selects the last element of the
sequence. -/
theorem C2_locator_picks_last (addrs : List String) (h : addrs ≠ []) :
    (resolveAddress none (.ok addrs)).2 = .ok (addrs.getLast h) := by
  simp [resolveAddress, List.getLast?_eq_getLast addrs h]

/-- Witness for C2 at the discovery result [A, B, C]: C is chosen. -/
theorem C2_locator_picks_last_witness :
    (["A", "B", "C"] : List String) ≠ [] ∧
      (resolveAddress none (.ok ["A", "B", "C"])).2 = .ok "C" := by
  have h : (["A", "B", "C"] : List String) ≠ [] := List.cons_ne_nil _ _
  exact ⟨h, C2_locator_picks_last ["A", "B", "C"] h⟩

/-- Counterexample to C3: for the discovery result [A, B, C] the locator does
not choose the first element A (it chooses C). -/
theorem C3_counterexample :
    (resolveAddress none (.ok ["A", "B", "C"])).2 ≠ .ok "A" := by
  intro h
  have h2 : (Except.ok "C" : Except Err String) = .ok "A" := h
  have h3 : ("C" : String) = "A" := Except.ok.inj h2
  exact absurd h3 (by decide)

/-- C3 as amended: when no explicit IP address is given, the locator invokes
network discovery and takes the last result of the returned sequence. -/
theorem C3_locator_discovers_and_takes_last (addrs : List String) (a : String)
    (h : addrs.getLast? = some a) :
    resolveAddress none (.ok addrs) = ([.discoverNupnp], .ok a) := by
  simp [resolveAddress, h]

/-- Witness for the amended C3 at the discovery result [A, B, C]. -/
theorem C3_locator_discovers_and_takes_last_witness :
    (["A", "B", "C"] : List String).getLast? = some "C" ∧
      resolveAddress none (.ok ["A", "B", "C"]) = ([.discoverNupnp], .ok "C") :=
  ⟨rfl, C3_locator_discovers_and_takes_last ["A", "B", "C"] "C" rfl⟩

/-- C4: if discovery returns an empty sequence and no explicit IP address was
given, the program fails with the "no bridge found" error, and its whole trace
is the single discovery call: no registration, config load, session
construction or bridge operation happens, for any subcommand. -/
theorem C4_empty_discovery_aborts (w : World) (sub : Subcommand) (fuel : Nat)
    (h : w.discoverNupnp = .ok []) :
    runMain w none sub fuel =
      ([.discoverNupnp], some (.error "No bridge IP addresses found on the network")) := by
  simp [runMain, resolveAddress, h]

/-- Witness for C4: a concrete world with empty discovery running `list`. -/
theorem C4_empty_discovery_aborts_witness :
    worldEmptyDiscovery.discoverNupnp = .ok [] ∧
      runMain worldEmptyDiscovery none .list 0 =
        ([.discoverNupnp], some (.error "No bridge IP addresses found on the network")) :=
  ⟨rfl, C4_empty_discovery_aborts worldEmptyDiscovery .list 0 rfl⟩


/-- Taking the first cell of each rendered row recovers the identifiers. -/
theorem rowsHead_eq_ids (ls : List Light) :
    ((ls.map lightRow).map fun r => r.headD "") = ls.map Light.id := by
  rw [List.map_map]
  rfl

/-- C6: for every fetch result, the list command outputs one row per light,
with the identifier column in ascending lexicographic order regardless of the
fetch order, and the identifiers a permutation of the fetched ones. -/
theorem C6_list_rows_sorted (o : BridgeOracle) (lights : List Light)
    (h : o.getAllLights = .ok lights) :
    ∃ rows, (cmd_list o).2 = .ok rows ∧
      rows = (sortLightsById lights).map lightRow ∧
      (rows.map fun r => r.headD "").Pairwise (fun a b => a ≤ b) ∧
      (rows.map fun r => r.headD "").Perm (lights.map Light.id) := by
  refine ⟨(sortLightsById lights).map lightRow, by simp [cmd_list, h], rfl, ?_, ?_⟩
  · rw [rowsHead_eq_ids]
    exact sortLightsById_sorted lights
  · rw [rowsHead_eq_ids]
    exact (sortLightsById_perm lights).map Light.id

/-- Witness for C6: lights fetched with ids 3, 1, 2 are displayed as rows
1, 2, 3. -/
theorem C6_list_rows_sorted_witness :
    oracleLights312.getAllLights = .ok lightsFetch312 ∧
      (∃ rows, (cmd_list oracleLights312).2 = .ok rows ∧
        rows = (sortLightsById lightsFetch312).map lightRow ∧
        (rows.map fun r => r.headD "").Pairwise (fun a b => a ≤ b) ∧
        (rows.map fun r => r.headD "").Perm (lightsFetch312.map Light.id)) ∧
      (cmd_list oracleLights312).2 =
        .ok [["1", "hall", "yes", "yes"],
             ["2", "porch", "no", "no"],
             ["3", "kitchen", "yes", "-"]] :=
  ⟨rfl, C6_list_rows_sorted oracleLights312 lightsFetch312 rfl, rfl⟩

/-- C7: in the list command's table a light with unknown power state renders
as "-" in the on column, `on = true` renders "yes", `on = false` renders "no";
reachable renders "yes"/"no"; and every displayed row is built from exactly
these renderings. -/
theorem C7_cell_rendering :
    renderOn none = "-" ∧ renderOn (some true) = "yes" ∧ renderOn (some false) = "no" ∧
    renderReachable true = "yes" ∧ renderReachable false = "no" ∧
    (∀ l : Light, lightRow l =
      [l.id, l.name, renderReachable l.state.reachable, renderOn l.state.onState]) ∧
    (∀ (o : BridgeOracle) (lights : List Light), o.getAllLights = .ok lights →
      (cmd_list o).2 = .ok ((sortLightsById lights).map lightRow)) := by
  refine ⟨rfl, rfl, rfl, rfl, rfl, fun l => rfl, fun o lights h => ?_⟩
  simp [cmd_list, h]

/-- Witness for C7: rows of the concrete oracle show all three on-cell
renderings. -/
theorem C7_cell_rendering_witness :
    oracleLights312.getAllLights = .ok lightsFetch312 ∧
      (cmd_list oracleLights312).2 = .ok ((sortLightsById lightsFetch312).map lightRow) ∧
      renderOn none = "-" :=
  ⟨rfl, C7_cell_rendering.2.2.2.2.2.2 oracleLights312 lightsFetch312 rfl,
    C7_cell_rendering.1⟩


/-- When every response succeeds, the set-all loop issues exactly one call per
identifier, in list order. -/
theorem runSetAll_all_ok (setResp : Nat → String → Bool → Except Err Unit) (turnOn : Bool) :
    ∀ (ids : List String) (k : Nat),
      (∀ i, i < ids.length → setResp (k + i) (ids.getD i "") turnOn = .ok ()) →
      runSetAll setResp turnOn k ids =
        (ids.map (fun id => Event.setLightState id turnOn), .ok ()) := by
  intro ids
  induction ids with
  | nil => intro k _; rfl
  | cons id rest ih =>
    intro k h
    have h0 : setResp k id turnOn = .ok () := by
      have := h 0 (Nat.succ_pos _)
      simpa using this
    have hrest : ∀ i, i < rest.length → setResp (k + 1 + i) (rest.getD i "") turnOn = .ok () := by
      intro i hi
      have := h (i + 1) (by simpa using Nat.succ_lt_succ hi)
      have heq : k + (i + 1) = k + 1 + i := by omega
      rw [heq] at this
      simpa using this
    simp [runSetAll, h0, ih (k + 1) hrest]

/-- When the response of ordinal `j` fails and all earlier ones succeed, the
set-all loop issues exactly the calls for the first `j + 1` identifiers and
stops with that error. -/
theorem runSetAll_fail_at (setResp : Nat → String → Bool → Except Err Unit) (turnOn : Bool) :
    ∀ (ids : List String) (k j : Nat) (e : Err),
      j < ids.length →
      setResp (k + j) (ids.getD j "") turnOn = .error e →
      (∀ i, i < j → setResp (k + i) (ids.getD i "") turnOn = .ok ()) →
      runSetAll setResp turnOn k ids =
        ((ids.take (j + 1)).map (fun id => Event.setLightState id turnOn), .error e) := by
  intro ids
  induction ids with
  | nil => intro k j e hj; exact absurd hj (by simp)
  | cons id rest ih =>
    intro k j e hj hfail hok
    cases j with
    | zero =>
      have h0 : setResp k id turnOn = .error e := by simpa using hfail
      simp [runSetAll, h0]
    | succ j2 =>
      have h0 : setResp k id turnOn = .ok () := by
        have := hok 0 (Nat.succ_pos _)
        simpa using this
      have hfail2 : setResp (k + 1 + j2) (rest.getD j2 "") turnOn = .error e := by
        have heq : k + (j2 + 1) = k + 1 + j2 := by omega
        rw [heq] at hfail
        simpa using hfail
      have hok2 : ∀ i, i < j2 → setResp (k + 1 + i) (rest.getD i "") turnOn = .ok () := by
        intro i hi
        have := hok (i + 1) (Nat.succ_lt_succ hi)
        have heq : k + (i + 1) = k + 1 + i := by omega
        rw [heq] at this
        simpa using this
      have hj2 : j2 < rest.length := by simpa using hj
      simp [runSetAll, h0, ih (k + 1) j2 e hj2 hfail2 hok2]

/-- C1: `all-on` and `all-off` issue exactly one `set_light_state` call per
fetched light, in ascending lexicographic order of light identifier; if the
call of ordinal `j` fails, the trace ends with that call — no call for any
subsequent light and no further call to an earlier light (no rollback). -/
theorem C1_all_on_off_order_and_stop (o : BridgeOracle) (lights : List Light)
    (ids : List String)
    (h : o.getAllLights = .ok lights)
    (hids : ids = (sortLightsById lights).map Light.id) :
    ids.Pairwise (fun a b => a ≤ b) ∧
    ids.Perm (lights.map Light.id) ∧
    ((∀ i, i < ids.length → o.setLightState i (ids.getD i "") true = .ok ()) →
      cmd_all_on o =
        (.getAllLights :: ids.map (fun id => .setLightState id true), .ok ())) ∧
    (∀ j e, j < ids.length →
      o.setLightState j (ids.getD j "") true = .error e →
      (∀ i, i < j → o.setLightState i (ids.getD i "") true = .ok ()) →
      cmd_all_on o =
        (.getAllLights :: (ids.take (j + 1)).map (fun id => .setLightState id true),
          .error e)) ∧
    ((∀ i, i < ids.length → o.setLightState i (ids.getD i "") false = .ok ()) →
      cmd_all_off o =
        (.getAllLights :: ids.map (fun id => .setLightState id false), .ok ())) ∧
    (∀ j e, j < ids.length →
      o.setLightState j (ids.getD j "") false = .error e →
      (∀ i, i < j → o.setLightState i (ids.getD i "") false = .ok ()) →
      cmd_all_off o =
        (.getAllLights :: (ids.take (j + 1)).map (fun id => .setLightState id false),
          .error e)) := by
  subst hids
  refine ⟨sortLightsById_sorted lights, (sortLightsById_perm lights).map Light.id,
    ?_, ?_, ?_, ?_⟩
  · intro hall
    have hr := runSetAll_all_ok o.setLightState true ((sortLightsById lights).map Light.id) 0
      (by intro i hi; simpa using hall i hi)
    simp [cmd_all_on, h, hr]
  · intro j e hj hfail hok
    have hr := runSetAll_fail_at o.setLightState true ((sortLightsById lights).map Light.id)
      0 j e hj (by simpa using hfail) (by intro i hi; simpa using hok i hi)
    simp [cmd_all_on, h, hr]
  · intro hall
    have hr := runSetAll_all_ok o.setLightState false ((sortLightsById lights).map Light.id) 0
      (by intro i hi; simpa using hall i hi)
    simp [cmd_all_off, h, hr]
  · intro j e hj hfail hok
    have hr := runSetAll_fail_at o.setLightState false ((sortLightsById lights).map Light.id)
      0 j e hj (by simpa using hfail) (by intro i hi; simpa using hok i hi)
    simp [cmd_all_off, h, hr]

/-- Witness for C1: two lights fetched as [2, 1]; the first call mutates light
1, the second call (light 2) fails, and the trace stops there with light 1
left mutated. -/
theorem C1_all_on_off_order_and_stop_witness :
    oracleSecondSetFails.getAllLights = .ok lightsTwo ∧
      (sortLightsById lightsTwo).map Light.id = ["1", "2"] ∧
      cmd_all_on oracleSecondSetFails =
        ([.getAllLights, .setLightState "1" true, .setLightState "2" true],
          .error "connection reset") := by
  have h := C1_all_on_off_order_and_stop oracleSecondSetFails lightsTwo
    ((sortLightsById lightsTwo).map Light.id) rfl rfl
  have hfail := h.2.2.2.1 1 "connection reset" (by decide) rfl
    (by intro i hi
        have h0 : i = 0 := Nat.lt_one_iff.mp hi
        subst h0
        rfl)
  exact ⟨rfl, rfl, hfail⟩


/-- Parity of the blink flag shifts by one negation per iteration. -/
theorem parityOn_succ (start : Bool) (i : Nat) :
    parityOn start (i + 1) = parityOn (!start) i := by
  rcases Nat.mod_two_eq_zero_or_one i with h | h
  · have h2 : (i + 1) % 2 = 1 := by omega
    simp [parityOn, h, h2]
  · have h2 : (i + 1) % 2 = 0 := by omega
    simp [parityOn, h, h2]

/-- The blink loop can never produce a success result: it either runs out of
fuel (still looping) or stops with the error of a failed call. -/
theorem blinkLoop_never_ok (setResp : Nat → String → Bool → Except Err Unit) (id : String) :
    ∀ (fuel : Nat) (turnOn : Bool) (k : Nat),
      (blinkLoop setResp id turnOn k fuel).2 ≠ some (.ok ()) := by
  intro fuel
  induction fuel with
  | zero => intro turnOn k h; simp [blinkLoop] at h
  | succ n ih =>
    intro turnOn k
    cases hr : setResp k id turnOn with
    | error e => simp [blinkLoop, hr]
    | ok u => simpa [blinkLoop, hr] using ih (!turnOn) (k + 1)

/-- While every call succeeds, each blink iteration issues one
`set_light_state` call and then sleeps one second, with the flag negated
between iterations, and the loop keeps running. -/
theorem blinkLoop_ok_trace (setResp : Nat → String → Bool → Except Err Unit) (id : String) :
    ∀ (fuel : Nat) (turnOn : Bool) (k : Nat),
      (∀ i, i < fuel → setResp (k + i) id (parityOn turnOn i) = .ok ()) →
      blinkLoop setResp id turnOn k fuel = (blinkTrace id turnOn fuel, none) := by
  intro fuel
  induction fuel with
  | zero => intro turnOn k _; rfl
  | succ n ih =>
    intro turnOn k h
    have h0 : setResp k id turnOn = .ok () := by
      have := h 0 (Nat.succ_pos _)
      simpa [parityOn] using this
    have hrest : ∀ i, i < n → setResp (k + 1 + i) id (parityOn (!turnOn) i) = .ok () := by
      intro i hi
      have := h (i + 1) (Nat.succ_lt_succ hi)
      have heq : k + (i + 1) = k + 1 + i := by omega
      rw [heq, parityOn_succ] at this
      exact this
    simp [blinkLoop, h0, ih (!turnOn) (k + 1) hrest, blinkTrace]

/-- C5: the blink handler never returns successfully — its only outcomes are a
propagated bridge-call error or still running (termination is otherwise
external); and while calls succeed, every iteration issues one
`set_light_state` call and then sleeps one second, indefinitely. -/
theorem C5_blink_runs_until_error (o : BridgeOracle) (id : String) (fuel : Nat) :
    (cmd_blink o id fuel).2 ≠ some (.ok ()) ∧
    (∀ r, (cmd_blink o id fuel).2 = some r → ∃ e, r = .error e) ∧
    ((∀ k, k < fuel → o.setLightState k id (parityOn true k) = .ok ()) →
      cmd_blink o id fuel =
        (.printLine ("Blinking light " ++ id ++ "...") :: blinkTrace id true fuel, none)) := by
  refine ⟨?_, ?_, ?_⟩
  · exact blinkLoop_never_ok o.setLightState id fuel true 0
  · intro r hr
    cases r with
    | ok u =>
      cases u
      exact absurd hr (blinkLoop_never_ok o.setLightState id fuel true 0)
    | error e => exact ⟨e, rfl⟩
  · intro h
    have hr := blinkLoop_ok_trace o.setLightState id fuel true 0
      (by intro i hi; simpa using h i hi)
    simp [cmd_blink, hr]

/-- Witness for C5: three successful blink iterations of light 7. -/
theorem C5_blink_runs_until_error_witness :
    (∀ k, k < 3 → okBridge.setLightState k "7" (parityOn true k) = .ok ()) ∧
      (cmd_blink okBridge "7" 3).2 ≠ some (.ok ()) ∧
      cmd_blink okBridge "7" 3 =
        ([.printLine "Blinking light 7...", .setLightState "7" true, .sleepSecs 1,
          .setLightState "7" false, .sleepSecs 1, .setLightState "7" true, .sleepSecs 1],
          none) := by
  have h := C5_blink_runs_until_error okBridge "7" 3
  have h3 := h.2.2 (fun k _ => rfl)
  exact ⟨fun k _ => rfl, h.1, h3⟩

/-- The sequence of (id, on) pairs requested by the blink loop is an initial
segment of the alternating sequence starting from the current flag, always
targeting the same id. -/
theorem blinkLoop_setCalls (setResp : Nat → String → Bool → Except Err Unit) (id : String) :
    ∀ (fuel : Nat) (turnOn : Bool) (k : Nat),
      ∃ m, m ≤ fuel ∧
        setCalls (blinkLoop setResp id turnOn k fuel).1 =
          (List.range m).map (fun i => (id, parityOn turnOn i)) := by
  intro fuel
  induction fuel with
  | zero => intro turnOn k; exact ⟨0, Nat.le_refl 0, rfl⟩
  | succ n ih =>
    intro turnOn k
    cases hr : setResp k id turnOn with
    | error e =>
      refine ⟨1, Nat.succ_le_succ (Nat.zero_le n), ?_⟩
      have hc : setCalls (blinkLoop setResp id turnOn k (n + 1)).1 = [(id, turnOn)] := by
        simp [blinkLoop, hr, setCalls]
      rw [hc]
      rfl
    | ok u =>
      obtain ⟨m, hm, hcalls⟩ := ih (!turnOn) (k + 1)
      refine ⟨m + 1, Nat.succ_le_succ hm, ?_⟩
      have hshift : (List.range (m + 1)).map (fun i => (id, parityOn turnOn i)) =
          (id, turnOn) :: (List.range m).map (fun i => (id, parityOn (!turnOn) i)) := by
        rw [List.range_succ_eq_map, List.map_cons, List.map_map]
        have hfun : ((fun i => (id, parityOn turnOn i)) ∘ Nat.succ) =
            (fun i => (id, parityOn (!turnOn) i)) := by
          funext a
          show (id, parityOn turnOn (a + 1)) = (id, parityOn (!turnOn) a)
          rw [parityOn_succ]
        rw [hfun]
        simp [parityOn]
      rw [hshift]
      simp [blinkLoop, hr, setCalls, hcalls]

/-- C10: the blink handler's `set_light_state` calls all target the unchanged
id and strictly alternate: the call of 0-based ordinal `i` requests on = true
exactly when `i` is even, i.e. the first call requests true and the 1-based
n-th call requests true exactly when n is odd. -/
theorem C10_blink_alternates (o : BridgeOracle) (id : String) (fuel : Nat) :
    ∃ m, m ≤ fuel ∧
      setCalls (cmd_blink o id fuel).1 =
        (List.range m).map (fun i => (id, decide (i % 2 = 0))) := by
  obtain ⟨m, hm, hcalls⟩ := blinkLoop_setCalls o.setLightState id fuel true 0
  refine ⟨m, hm, ?_⟩
  have hhead : setCalls (cmd_blink o id fuel).1 =
      setCalls (blinkLoop o.setLightState id true 0 fuel).1 := rfl
  rw [hhead, hcalls]
  exact List.map_congr_left (fun i _ => by
    by_cases h : i % 2 = 0 <;> simp [parityOn, h])


/-- Every event emitted by configuration loading is a config-file access. -/
theorem loadConfig_events_config (w : World) :
    ∀ ev ∈ (loadConfig w).1, ev.isConfigAccess = true := by
  intro ev h
  cases hf : w.findConfigFile with
  | none =>
    simp [loadConfig, hf] at h
    subst h
    rfl
  | some p =>
    cases hr : w.readToString p with
    | error e =>
      simp [loadConfig, hf, hr] at h
      rcases h with h | h <;> subst h <;> rfl
    | ok c =>
      cases hp : w.parseToml c with
      | error e =>
        simp [loadConfig, hf, hr, hp] at h
        rcases h with h | h | h <;> subst h <;> rfl
      | ok cfg =>
        simp [loadConfig, hf, hr, hp] at h
        rcases h with h | h | h <;> subst h <;> rfl

/-- A config-file access is neither a session construction nor a bridge call. -/
theorem configAccess_not_session (ev : Event) :
    ev.isConfigAccess = true → ev.isSessionActivity = false := by
  cases ev <;> simp [Event.isConfigAccess, Event.isSessionActivity, Event.isBridgeCall]

/-- C8: for every non-register subcommand run with a resolved address,
configuration loading fails when the config file is absent, and when the file
is present and readable but does not parse as the required schema; and
whenever configuration loading fails, the program stops with that error —
no session is constructed and no bridge call is attempted. -/
theorem C8_config_failure_aborts (w : World) (ip : Option String) (sub : Subcommand)
    (a : String) (fuel : Nat)
    (hsub : sub ≠ .register)
    (haddr : (resolveAddress ip w.discoverNupnp).2 = .ok a) :
    (w.findConfigFile = none → ∃ e, (loadConfig w).2 = .error e) ∧
    (∀ p c ep, w.findConfigFile = some p → w.readToString p = .ok c →
      w.parseToml c = .error ep → ∃ e, (loadConfig w).2 = .error e) ∧
    (∀ e, (loadConfig w).2 = .error e →
      (runMain w ip sub fuel).2 = some (.error e) ∧
      ∀ ev ∈ (runMain w ip sub fuel).1, ev.isSessionActivity = false) := by
  refine ⟨?_, ?_, ?_⟩
  · intro hf
    exact ⟨"no hue config file found in .config/hue", by simp [loadConfig, hf]⟩
  · intro p c ep hp hr hparse
    exact ⟨ep, by simp [loadConfig, hp, hr, hparse]⟩
  · intro e he
    have hmain : runMain w ip sub fuel =
        ((resolveAddress ip w.discoverNupnp).1 ++ (loadConfig w).1, some (.error e)) := by
      cases sub with
      | register => exact absurd rfl hsub
      | scan => simp [runMain, haddr, he]
      | list => simp [runMain, haddr, he]
      | listGroups => simp [runMain, haddr, he]
      | blink id => simp [runMain, haddr, he]
      | name id newName => simp [runMain, haddr, he]
      | allOn => simp [runMain, haddr, he]
      | allOff => simp [runMain, haddr, he]
    rw [hmain]
    refine ⟨rfl, ?_⟩
    intro ev hev
    rcases List.mem_append.mp hev with hev | hev
    · rw [resolveAddress_events ip w.discoverNupnp ev hev]
      rfl
    · exact configAccess_not_session ev (loadConfig_events_config w ev hev)

/-- Witness for C8: running `list` against a world with no config file. -/
theorem C8_config_failure_aborts_witness :
    worldNoConfigFile.findConfigFile = none ∧
      (∃ e, (loadConfig worldNoConfigFile).2 = .error e) ∧
      (runMain worldNoConfigFile (some "192.168.1.2") .list 0).2 =
        some (.error "no hue config file found in .config/hue") := by
  have h := C8_config_failure_aborts worldNoConfigFile (some "192.168.1.2") .list
    "192.168.1.2" 0 (by decide) rfl
  have h3 := h.2.2 "no hue config file found in .config/hue" rfl
  exact ⟨rfl, ⟨_, rfl⟩, h3.1⟩

/-- C9: with the address resolved, the register subcommand touches neither the
configuration file nor a bridge session: its whole trace is the discovery
events followed by exactly the registration call, printing the returned
username and succeeding, or propagating the registration error. -/
theorem C9_register_skips_config (w : World) (ip : Option String) (a : String) (fuel : Nat)
    (haddr : (resolveAddress ip w.discoverNupnp).2 = .ok a) :
    (∀ ev ∈ (runMain w ip .register fuel).1,
      ev.isConfigAccess = false ∧ ev.isSessionActivity = false) ∧
    (∀ u, w.registerUser a "hue-rs-cli" = .ok u →
      runMain w ip .register fuel =
        ((resolveAddress ip w.discoverNupnp).1 ++
          [.registerUser a "hue-rs-cli", .printLine ("Username: " ++ u)],
          some (.ok ()))) ∧
    (∀ e, w.registerUser a "hue-rs-cli" = .error e →
      runMain w ip .register fuel =
        ((resolveAddress ip w.discoverNupnp).1 ++ [.registerUser a "hue-rs-cli"],
          some (.error e))) := by
  have h2 : ∀ u, w.registerUser a "hue-rs-cli" = .ok u →
      runMain w ip .register fuel =
        ((resolveAddress ip w.discoverNupnp).1 ++
          [.registerUser a "hue-rs-cli", .printLine ("Username: " ++ u)],
          some (.ok ())) := by
    intro u hr
    simp [runMain, haddr, hr]
  have h3 : ∀ e, w.registerUser a "hue-rs-cli" = .error e →
      runMain w ip .register fuel =
        ((resolveAddress ip w.discoverNupnp).1 ++ [.registerUser a "hue-rs-cli"],
          some (.error e)) := by
    intro e hr
    simp [runMain, haddr, hr]
  refine ⟨?_, h2, h3⟩
  intro ev hev
  cases hreg : w.registerUser a "hue-rs-cli" with
  | ok u =>
    rw [h2 u hreg] at hev
    rcases List.mem_append.mp hev with hev | hev
    · rw [resolveAddress_events ip w.discoverNupnp ev hev]
      exact ⟨rfl, rfl⟩
    · simp at hev
      rcases hev with hev | hev <;> subst hev <;> exact ⟨rfl, rfl⟩
  | error e =>
    rw [h3 e hreg] at hev
    rcases List.mem_append.mp hev with hev | hev
    · rw [resolveAddress_events ip w.discoverNupnp ev hev]
      exact ⟨rfl, rfl⟩
    · simp at hev
      subst hev
      exact ⟨rfl, rfl⟩

/-- Witness for C9: registering against a world whose registration succeeds. -/
theorem C9_register_skips_config_witness :
    (resolveAddress (some "10.0.0.5") baseWorld.discoverNupnp).2 = .ok "10.0.0.5" ∧
      baseWorld.registerUser "10.0.0.5" "hue-rs-cli" = .ok "generated-user" ∧
      runMain baseWorld (some "10.0.0.5") .register 0 =
        ([.registerUser "10.0.0.5" "hue-rs-cli", .printLine "Username: generated-user"],
          some (.ok ())) := by
  have h := C9_register_skips_config baseWorld (some "10.0.0.5") "10.0.0.5" 0 rfl
  have h2 := h.2.1 "generated-user" rfl
  exact ⟨rfl, rfl, h2⟩

end HueCli
